import Mathlib

/-!
Shallow embedding of `packages/@angular/cli/tasks/lint.ts`.

The task orchestrates an external linting library: it resolves file lists
via glob patterns, runs the linter per configuration, merges failures and
fixes across configurations, formats output and decides an exit code.
External collaborators (the tslint module, the glob library, the
filesystem, `path.dirname`, semver) are modelled as an explicit
environment of pure functions; console output (`ui.writeLine`) is
modelled as a list of styled lines; a thrown `SilentError` is modelled
with `Except`.

JavaScript subtleties kept by the model:
  * the spread merge `{ ...new LintTaskOptions(), ...options }` lets a key
    explicitly present with value `undefined` overwrite a default, so the
    incoming option fields with defaults are `Option (Option _)`
    (absent / explicitly undefined / a value);
  * truthiness: `undefined` and `""` are falsy, every array (also `[]`)
    is truthy;
  * the version workaround reassigns `program = undefined` after the file
    list was computed but before the linter is constructed.
-/

/-- Opaque payload produced by `tslint` for one rule violation
(`RuleFailure`); the library compares them with `.equals`. -/
abbrev Failure := Nat

/-- Opaque payload describing one applied fix; never compared, only
concatenated. -/
abbrev LintFix := Nat

/-- Opaque handle for a `ts.Program` built by `Linter.createProgram`. -/
abbrev Program := Nat

/-- Opaque payload for `Configuration.findConfiguration(...).results`. -/
abbrev RuleResults := Nat

/-- `RuleFailure.equals` of the external library, the equality used by the
deduplication filter in `run`'s reduce step. -/
def Failure.equals (a b : Failure) : Bool := a == b

/-- A console line together with the chalk styling applied to it. -/
inductive Styled where
  | yellow (s : String)
  | red (s : String)
  | green (s : String)
  | plain (s : String)
deriving DecidableEq, Repr

/-- The `silent-error` package: a fatal, user-facing error carrying a
message. -/
inductive SilentError where
  | mk (msg : Styled)
deriving DecidableEq, Repr

/-- A `string | string[]` value as it appears in `CliLintConfig`. -/
inductive StrOrList where
  | str (s : String)
  | list (l : List String)
deriving DecidableEq, Repr

/-- `Array.isArray(x) ? x : [x]`. -/
def StrOrList.toList : StrOrList → List String
  | StrOrList.str s => [s]
  | StrOrList.list l => l

/-- JavaScript truthiness of a `string | string[]` value: `""` is falsy,
every array (also the empty one) is truthy. -/
def StrOrList.jsTruthy : StrOrList → Bool
  | StrOrList.str s => !(s == "")
  | StrOrList.list _ => true

/-- Truthiness of an optional `string | string[]` value (`undefined` is
falsy). -/
def optTruthy : Option StrOrList → Bool
  | some v => v.jsTruthy
  | none => false

/-- Truthiness of an optional string (`undefined` and `""` are falsy). -/
def strTruthy : Option String → Bool
  | some s => !(s == "")
  | none => false

/-- Truthiness of an optional boolean (`undefined` is falsy). -/
def truthy (o : Option Bool) : Bool := o.getD false

/-- How JavaScript template interpolation renders a possibly-undefined
string. -/
def jsStringOf : Option String → String
  | some s => s
  | none => "undefined"

/-- `interface CliLintConfig` of lint.ts. -/
structure CliLintConfig where
  files : Option StrOrList
  project : Option String
  tslintConfig : Option String
  exclude : Option StrOrList
deriving DecidableEq, Repr

/-- The options object a caller passes to `run`. For the three fields that
the `LintTaskOptions` class initialises, `none` means the key is absent
(the default survives the spread merge) and `some none` means the key is
present but explicitly `undefined` (it overwrites the default). `fix` and
`force` have no defaults, so absent and undefined coincide. -/
structure LintTaskOptionsArg where
  fix : Option Bool
  force : Option Bool
  format : Option (Option String)
  silent : Option (Option Bool)
  typeCheck : Option (Option Bool)
  configs : Option (List CliLintConfig)

/-- The merged options after `{ ...new LintTaskOptions(), ...options }`. -/
structure LintTaskOptions where
  fix : Option Bool
  force : Option Bool
  format : Option String
  silent : Option Bool
  typeCheck : Option Bool
  configs : Option (List CliLintConfig)

/-- The spread merge of the class defaults (`format = 'prose'`,
`silent = false`, `typeCheck = false`) with the caller's options: an
absent key keeps the default, a present key (even explicitly `undefined`)
overwrites it. -/
def mergeOptions (o : LintTaskOptionsArg) : LintTaskOptions :=
  { fix := o.fix
    force := o.force
    format := match o.format with
      | none => some "prose"
      | some v => v
    silent := match o.silent with
      | none => some false
      | some v => v
    typeCheck := match o.typeCheck with
      | none => some false
      | some v => v
    configs := o.configs }

/-- Options passed to the glob library (`ignore` patterns, `nodir`). -/
structure GlobOptions where
  ignore : List String
  nodir : Bool
deriving DecidableEq, Repr

/-- The `lintOptions`/program pair a `Linter` instance is constructed
with. -/
structure LinterInit where
  fix : Option Bool
  formatter : Option String
  program : Option Program
deriving DecidableEq, Repr

/-- One `linter.lint(file, contents, configLoad.results)` call. -/
structure LintCall where
  file : String
  contents : Option String
  ruleResults : RuleResults
deriving DecidableEq, Repr

/-- The aggregate `linter.getResult()` of one configuration, and the shape
of the merged total: failures, and fixes that stay `undefined` until some
configuration supplies a fixes array. -/
structure LintResult where
  failures : List Failure
  fixes : Option (List LintFix)
deriving DecidableEq, Repr

/-- The external collaborators of the task, as pure functions: the
project's tslint module (`createProgram`, `getFileNames`, configuration
lookup, linting, formatter lookup), the glob library, the filesystem,
`path.dirname`, and the result of `satisfies(Linter.VERSION, '< 5.5')`.
`getResult` maps a linter's construction data and its sequence of lint
calls to the aggregate result it reports. `readFile` returns `none` when
`fs.readFileSync` would throw. -/
structure Env where
  createProgram : String → Program
  getFileNames : Program → List String
  globSync : String → GlobOptions → List String
  readFile : String → Option String
  dirname : String → String
  findConfiguration : Option String → String → RuleResults
  getResult : LinterInit → List LintCall → LintResult
  findFormatter : Option String → Option (List Failure → Option (List LintFix) → String)
  satisfiesLt55 : Bool

/-- Modelled from the spec: `stripBom` of `utilities/strip-bom` (not part
of the sources at hand) removes a leading byte-order mark so that the
first decoded character is the first source character. -/
def stripBom (s : String) : String :=
  if s.startsWith "\uFEFF" then s.drop 1 else s

/-- `getFileContents`: read and decode a file, stripping a BOM; a read
failure becomes a fatal `SilentError` naming the file. -/
def getFileContents (env : Env) (file : String) : Except SilentError String :=
  match env.readFile file with
  | some contents => Except.ok (stripBom contents)
  | none => Except.error (SilentError.mk (Styled.plain ("Could not read file \"" ++ file ++ "\".")))

/-- The glob options of one configuration: when `exclude` is truthy, its
patterns become glob-ignore patterns and directories are excluded;
otherwise the options object is empty. -/
def globOptionsOf (lintConfig : CliLintConfig) : GlobOptions :=
  if optTruthy lintConfig.exclude then
    { ignore := (lintConfig.exclude.getD (StrOrList.list [])).toList, nodir := true }
  else
    { ignore := [], nodir := false }

/-- `getFilesToLint`: explicit `files` patterns take precedence; otherwise
a program's file names are used when a program exists; each entry is
glob-expanded and the expansions are flattened with
`reduce((a, b) => a.concat(b), [])`. -/
def getFilesToLint (env : Env) (program : Option Program) (lintConfig : CliLintConfig) :
    List String :=
  let files : List String :=
    if optTruthy lintConfig.files then
      (lintConfig.files.getD (StrOrList.list [])).toList
    else
      match program with
      | some p => env.getFileNames p
      | none => []
  let globOptions := globOptionsOf lintConfig
  (files.map (fun file => env.globSync file globOptions)).foldl (fun a b => a ++ b) []

/-- The per-file loop of `run`: when no program is active the file's
contents are read (a failure aborts everything); the rule configuration is
reloaded only when the file's directory differs from the previous file's
directory; each file contributes one lint call, in order. -/
def lintCalls (env : Env) (lintConfig : CliLintConfig) (program : Option Program) :
    List String → Option String → Option RuleResults → Except SilentError (List LintCall)
  | [], _, _ => Except.ok []
  | file :: rest, lastDirectory, configLoad =>
    let contentsRes : Except SilentError (Option String) :=
      match program with
      | some _ => Except.ok none
      | none =>
        match getFileContents env file with
        | Except.ok s => Except.ok (some s)
        | Except.error e => Except.error e
    match contentsRes with
    | Except.error e => Except.error e
    | Except.ok fileContents =>
      let currentDirectory := env.dirname file
      let configLoad2 :=
        if some currentDirectory = lastDirectory then configLoad
        else some (env.findConfiguration lintConfig.tslintConfig file)
      match lintCalls env lintConfig program rest (some currentDirectory) configLoad2 with
      | Except.error e => Except.error e
      | Except.ok calls =>
        Except.ok ({ file := file, contents := fileContents, ruleResults := configLoad2.getD 0 } :: calls)

/-- The body of the `.map` over configurations: build a program when
`project` is set (warning when type checking was requested without one),
resolve the files, apply the tslint `< 5.5` workaround, construct the
linter and collect its result. -/
def processConfig (env : Env) (options : LintTaskOptions) (config : CliLintConfig) :
    List Styled × Except SilentError LintResult :=
  let projectTruthy := strTruthy config.project
  let program0 : Option Program :=
    if projectTruthy then some (env.createProgram (config.project.getD "")) else none
  let warnOut : List Styled :=
    if !projectTruthy && truthy options.typeCheck && !(truthy options.silent) then
      [Styled.yellow "A \"project\" must be specified to enable type checking."]
    else []
  let files := getFilesToLint env program0 config
  let program : Option Program :=
    if env.satisfiesLt55 && !(truthy options.typeCheck) then none else program0
  let linterInit : LinterInit :=
    { fix := options.fix, formatter := options.format, program := program }
  match lintCalls env config program files none none with
  | Except.error e => (warnOut, Except.error e)
  | Except.ok calls => (warnOut, Except.ok (env.getResult linterInit calls))

/-- The `.map` over the configuration list: warnings accumulate in order;
a thrown error aborts the whole map, keeping the output already written. -/
def processConfigs (env : Env) (options : LintTaskOptions) :
    List CliLintConfig → List Styled × Except SilentError (List LintResult)
  | [] => ([], Except.ok [])
  | c :: cs =>
    match processConfig env options c with
    | (out, Except.error e) => (out, Except.error e)
    | (out, Except.ok r) =>
      match processConfigs env options cs with
      | (out2, Except.error e) => (out ++ out2, Except.error e)
      | (out2, Except.ok rs) => (out ++ out2, Except.ok (r :: rs))

/-- One step of the `.reduce`: failures of the current result not equal
(under `Failure.equals`) to an already-accumulated failure are appended;
fixes, when present, are concatenated unconditionally. -/
def mergeResults (total current : LintResult) : LintResult :=
  let failures :=
    current.failures.filter (fun cf => !(total.failures.any (fun ef => ef.equals cf)))
  let total1 : LintResult := { total with failures := total.failures ++ failures }
  match current.fixes with
  | some fx => { total1 with fixes := some ((total1.fixes.getD []) ++ fx) }
  | none => total1

/-- The whole `.reduce(..., { failures: [], fixes: undefined })`. -/
def mergeAll (results : List LintResult) : LintResult :=
  results.foldl mergeResults { failures := [], fixes := none }

/-- The three formats of the `indexOf` check on line 121 of lint.ts. -/
def humanReadableFormats : List String := ["prose", "verbose", "stylish"]

/-- `['prose', 'verbose', 'stylish'].indexOf(options.format) == -1`,
negated: an `undefined` format is never found in the list. -/
def formatIsHumanReadable : Option String → Bool
  | some f => humanReadableFormats.contains f
  | none => false

/-- The message of the invalid-format `SilentError` (template
interpolation renders an undefined format as "undefined"). -/
def invalidFormatMessage (format : Option String) : String :=
  "Invalid lint format \"" ++ jsStringOf format ++ "\"."

/-- Lines 121-136 of lint.ts: the exit-code decision and the red/green
banners, which are printed only for the three human-readable formats and
only when not silent. Returns the lines written and the exit code. -/
def exitPhase (options : LintTaskOptions) (result : LintResult) : List Styled × Nat :=
  if formatIsHumanReadable options.format = false then
    ([], if result.failures.length == 0 || truthy options.force then 0 else 2)
  else if result.failures.length > 0 then
    ((if truthy options.silent then [] else [Styled.red "Lint errors found in the listed files."]),
      if truthy options.force then 0 else 2)
  else
    ((if truthy options.silent then [] else [Styled.green "All files pass linting."]), 0)

/-- Lines 107-136 of lint.ts: unless silent, resolve the formatter
(unknown name: fatal invalid-format error), print its non-empty output,
then decide the exit code. -/
def reportAndExit (env : Env) (options : LintTaskOptions) (out : List Styled)
    (result : LintResult) : List Styled × Except SilentError Nat :=
  if truthy options.silent then
    let phase := exitPhase options result
    (out ++ phase.1, Except.ok phase.2)
  else
    match env.findFormatter options.format with
    | none =>
      (out, Except.error (SilentError.mk (Styled.red (invalidFormatMessage options.format))))
    | some formatterFn =>
      let output := formatterFn result.failures result.fixes
      let out1 := out ++ (if output == "" then [] else [Styled.plain output])
      let phase := exitPhase options result
      (out1 ++ phase.1, Except.ok phase.2)

/-- `run`: merge option defaults, short-circuit on an empty configuration
list, process every configuration, merge the results, report and decide
the exit code. The returned pair is (console lines written, either the
fatal error thrown or the resolved exit code). -/
def run (env : Env) (optionsArg : LintTaskOptionsArg) :
    List Styled × Except SilentError Nat :=
  let options := mergeOptions optionsArg
  let lintConfigs := options.configs.getD []
  if lintConfigs.length == 0 then
    ((if truthy options.silent then [] else [Styled.yellow "No lint configuration(s) found."]),
      Except.ok 0)
  else
    match processConfigs env options lintConfigs with
    | (out, Except.error e) => (out, Except.error e)
    | (out, Except.ok results) => reportAndExit env options out (mergeAll results)

/-- A concrete configuration with one explicit file pattern and no
project. -/
def cfgA : CliLintConfig :=
  { files := some (StrOrList.str "a.ts"), project := none, tslintConfig := none, exclude := none }

/-- A concrete environment: glob expands a pattern to itself, every file
reads as "x", the linter reports one failure and no fixes, and every
formatter name resolves to a formatter with empty output. -/
def envOK : Env :=
  { createProgram := fun _ => 0
    getFileNames := fun _ => []
    globSync := fun pat _ => [pat]
    readFile := fun _ => some "x"
    dirname := fun _ => "d"
    findConfiguration := fun _ _ => 0
    getResult := fun _ _ => { failures := [1], fixes := none }
    findFormatter := fun _ => some (fun _ _ => "")
    satisfiesLt55 := false }

/-- Like `envOK` but no formatter name is known to the linter library. -/
def envNoFmt : Env :=
  { envOK with findFormatter := fun _ => none }

/-- Like `envOK` but the linter reports no failures. -/
def envNoFail : Env :=
  { envOK with getResult := fun _ _ => { failures := [], fixes := none } }

/-- Like `envOK` but every file read fails. -/
def envNoRead : Env :=
  { envOK with readFile := fun _ => none }

/-- Is a console line a yellow (warning) line? -/
def isYellow : Styled → Bool
  | Styled.yellow _ => true
  | _ => false

/-- Caller options: format "prose", nothing else set, one configuration. -/
def optsProse : LintTaskOptionsArg :=
  { fix := none, force := none, format := some (some "prose"), silent := none,
    typeCheck := none, configs := some [cfgA] }

/-- Caller options: unknown format, silent explicitly true. -/
def optsSilentUnknown : LintTaskOptionsArg :=
  { fix := none, force := none, format := some (some "doesNotExist"),
    silent := some (some true), typeCheck := none, configs := some [cfgA] }

/-- Caller options: unknown format, silent left at its default (false). -/
def optsLoudUnknown : LintTaskOptionsArg :=
  { fix := none, force := none, format := some (some "doesNotExist"), silent := none,
    typeCheck := none, configs := some [cfgA] }

/-- Caller options: non-human-readable format "json", force true. -/
def optsJson : LintTaskOptionsArg :=
  { fix := none, force := some true, format := some (some "json"), silent := none,
    typeCheck := none, configs := some [cfgA] }

/-- Caller options: no keys at all (so no configurations). -/
def optsEmpty : LintTaskOptionsArg :=
  { fix := none, force := none, format := none, silent := none,
    typeCheck := none, configs := none }

/-- Caller options: format, silent and typeCheck keys present but
explicitly undefined. -/
def optsUndef : LintTaskOptionsArg :=
  { fix := none, force := none, format := some none, silent := some none,
    typeCheck := some none, configs := some [cfgA] }

/-- A concrete configuration with no `files` entry at all. -/
def cfgB : CliLintConfig :=
  { files := none, project := none, tslintConfig := none, exclude := none }

theorem mergeResults_empty_left (r : LintResult) :
    mergeResults { failures := [], fixes := none } r = r := by
  cases r with
  | mk failures fixes =>
    cases fixes <;> simp [mergeResults]

theorem mergeResults_failures (t c : LintResult) :
    (mergeResults t c).failures
      = t.failures ++ c.failures.filter
          (fun cf => !(t.failures.any (fun ef => ef.equals cf))) := by
  unfold mergeResults
  split <;> rfl

theorem mergeAll_pair (r1 r2 : LintResult) :
    mergeAll [r1, r2] = mergeResults r1 r2 := by
  simp [mergeAll, mergeResults_empty_left]

theorem any_equals_iff (l : List Failure) (f : Failure) :
    (l.any (fun ef => ef.equals f)) = true ↔ f ∈ l := by
  simp [List.any_eq_true, Failure.equals]

theorem not_any_equals (l : List Failure) (f : Failure) :
    (!(l.any (fun ef => ef.equals f))) = true ↔ f ∉ l := by
  simp only [Bool.not_eq_true', ← Bool.not_eq_true, any_equals_iff]

/-- C2: merging the results of two configs deduplicates failures under the
failure equality comparison — each distinct failure appears exactly once
in the merged failure list, the merged list represents exactly the union
of the two failure sets, and that set does not depend on the order of the
two configs. -/
theorem mergeAll_dedup_pair (r1 r2 : LintResult)
    (h1 : r1.failures.Nodup) (h2 : r2.failures.Nodup)
    (hov : ∃ f, f ∈ r1.failures ∧ f ∈ r2.failures) :
    (mergeAll [r1, r2]).failures.Nodup ∧
    (mergeAll [r1, r2]).failures.toFinset
      = r1.failures.toFinset ∪ r2.failures.toFinset ∧
    (mergeAll [r1, r2]).failures.toFinset = (mergeAll [r2, r1]).failures.toFinset := by
  have e12 : (mergeAll [r1, r2]).failures
      = r1.failures ++ r2.failures.filter
          (fun cf => !(r1.failures.any (fun ef => ef.equals cf))) := by
    rw [mergeAll_pair, mergeResults_failures]
  have e21 : (mergeAll [r2, r1]).failures
      = r2.failures ++ r1.failures.filter
          (fun cf => !(r2.failures.any (fun ef => ef.equals cf))) := by
    rw [mergeAll_pair, mergeResults_failures]
  refine ⟨?_, ?_, ?_⟩
  · rw [e12, List.nodup_append]
    refine ⟨h1, h2.filter _, ?_⟩
    intro a ha hb
    have hb2 := List.mem_filter.mp hb
    have : a ∈ r1.failures := ha
    have hfalse : (r1.failures.any (fun ef => ef.equals a)) = true :=
      (any_equals_iff r1.failures a).mpr this
    rw [hfalse] at hb2
    simp at hb2
  · ext a
    simp only [e12, List.mem_toFinset, List.mem_append, List.mem_filter, not_any_equals,
      Finset.mem_union]
    tauto
  · ext a
    simp only [e12, e21, List.mem_toFinset, List.mem_append, List.mem_filter, not_any_equals]
    tauto

/-- Witness for C2 at the concrete overlapping results
{1, 2} and {2, 3}. -/
theorem mergeAll_dedup_pair_witness :
    ([1, 2] : List Failure).Nodup ∧ ([2, 3] : List Failure).Nodup ∧
    ((mergeAll [{ failures := [1, 2], fixes := none },
        { failures := [2, 3], fixes := none }]).failures.Nodup ∧
      (mergeAll [{ failures := [1, 2], fixes := none },
          { failures := [2, 3], fixes := none }]).failures.toFinset
        = ({ failures := [1, 2], fixes := none } : LintResult).failures.toFinset
            ∪ ({ failures := [2, 3], fixes := none } : LintResult).failures.toFinset ∧
      (mergeAll [{ failures := [1, 2], fixes := none },
          { failures := [2, 3], fixes := none }]).failures.toFinset
        = (mergeAll [{ failures := [2, 3], fixes := none },
            { failures := [1, 2], fixes := none }]).failures.toFinset) :=
  ⟨by decide, by decide,
    mergeAll_dedup_pair { failures := [1, 2], fixes := none }
      { failures := [2, 3], fixes := none } (by decide) (by decide)
      ⟨2, by decide, by decide⟩⟩

/-- C4: fixes are never deduplicated by the merge — two configs each
producing the same single fix F yield a merged fixes sequence [F, F] of
length 2. -/
theorem mergeAll_fixes_concat (r1 r2 : LintResult) (F : LintFix)
    (h1 : r1.fixes = some [F]) (h2 : r2.fixes = some [F]) :
    (mergeAll [r1, r2]).fixes = some [F, F] ∧
    ((mergeAll [r1, r2]).fixes.getD []).length = 2 := by
  have hfix : (mergeAll [r1, r2]).fixes = some [F, F] := by
    rw [mergeAll_pair]
    unfold mergeResults
    rw [h2]
    simp [h1]
  exact ⟨hfix, by rw [hfix]; rfl⟩

/-- Witness for C4 at the concrete fix 5 produced by both configs. -/
theorem mergeAll_fixes_concat_witness :
    ({ failures := [], fixes := some [5] } : LintResult).fixes = some [5] ∧
    ({ failures := [7], fixes := some [5] } : LintResult).fixes = some [5] ∧
    ((mergeAll [{ failures := [], fixes := some [5] },
        { failures := [7], fixes := some [5] }]).fixes = some [5, 5] ∧
      ((mergeAll [{ failures := [], fixes := some [5] },
          { failures := [7], fixes := some [5] }]).fixes.getD []).length = 2) :=
  ⟨rfl, rfl,
    mergeAll_fixes_concat { failures := [], fixes := some [5] }
      { failures := [7], fixes := some [5] } 5 rfl rfl⟩

theorem length_beq_zero_false (l : List CliLintConfig) (h : l ≠ []) :
    (l.length == 0) = false := by
  cases l with
  | nil => exact absurd rfl h
  | cons a as => rfl

theorem run_nonEmpty (env : Env) (optionsArg : LintTaskOptionsArg)
    (hconfigs : (mergeOptions optionsArg).configs.getD [] ≠ []) :
    run env optionsArg
      = (match processConfigs env (mergeOptions optionsArg)
            ((mergeOptions optionsArg).configs.getD []) with
        | (out, Except.error e) => (out, Except.error e)
        | (out, Except.ok results) =>
          reportAndExit env (mergeOptions optionsArg) out (mergeAll results)) := by
  simp only [run]
  rw [length_beq_zero_false _ hconfigs]
  simp

theorem run_ok (env : Env) (optionsArg : LintTaskOptionsArg)
    (out : List Styled) (rs : List LintResult)
    (hconfigs : (mergeOptions optionsArg).configs.getD [] ≠ [])
    (hproc : processConfigs env (mergeOptions optionsArg)
        ((mergeOptions optionsArg).configs.getD []) = (out, Except.ok rs)) :
    run env optionsArg = reportAndExit env (mergeOptions optionsArg) out (mergeAll rs) := by
  rw [run_nonEmpty env optionsArg hconfigs, hproc]

theorem run_err (env : Env) (optionsArg : LintTaskOptionsArg)
    (out : List Styled) (e : SilentError)
    (hconfigs : (mergeOptions optionsArg).configs.getD [] ≠ [])
    (hproc : processConfigs env (mergeOptions optionsArg)
        ((mergeOptions optionsArg).configs.getD []) = (out, Except.error e)) :
    run env optionsArg = (out, Except.error e) := by
  rw [run_nonEmpty env optionsArg hconfigs, hproc]

theorem processConfig_out_yellow (env : Env) (options : LintTaskOptions)
    (c : CliLintConfig) : ((processConfig env options c).1).all isYellow = true := by
  simp only [processConfig]
  split <;> (simp only []; split <;> simp [isYellow])

theorem processConfigs_out_yellow (env : Env) (options : LintTaskOptions)
    (cfgs : List CliLintConfig) : ((processConfigs env options cfgs).1).all isYellow = true := by
  induction cfgs with
  | nil => rfl
  | cons c cs ih =>
    simp only [processConfigs]
    have hc := processConfig_out_yellow env options c
    cases hpc : processConfig env options c with
    | mk out res =>
      rw [hpc] at hc
      cases res with
      | error e => simpa using hc
      | ok r =>
        cases hps : processConfigs env options cs with
        | mk out2 res2 =>
          rw [hps] at ih
          cases res2 <;> simp_all [List.all_append]

theorem all_yellow_no_banner (l : List Styled) (h : l.all isYellow = true) (s : String) :
    Styled.red s ∉ l ∧ Styled.green s ∉ l := by
  rw [List.all_eq_true] at h
  constructor
  · intro hmem
    have := h _ hmem
    simp [isYellow] at this
  · intro hmem
    have := h _ hmem
    simp [isYellow] at this

theorem foldl_append_eq_flatten (l : List (List String)) (acc : List String) :
    l.foldl (fun a b => a ++ b) acc = acc ++ l.flatten := by
  induction l generalizing acc with
  | nil => simp
  | cons x xs ih => simp [List.foldl_cons, ih]

/-- C5: file-list resolution — explicit `files` patterns take precedence
over the program (the program is not consulted when `files` is truthy, so
the result is the one a program-less call gives); when `files` is absent
the program's file names are used; the per-pattern glob expansions are
flattened in pattern order then expansion order (`flatMap`, which keeps
duplicates across patterns); with neither `files` nor program the list is
empty. -/
theorem getFilesToLint_resolution (env : Env) (program : Program) (cfg : CliLintConfig) :
    (optTruthy cfg.files = true →
      getFilesToLint env (some program) cfg
        = ((cfg.files.getD (StrOrList.list [])).toList).flatMap
            (fun pat => env.globSync pat (globOptionsOf cfg)) ∧
      getFilesToLint env (some program) cfg = getFilesToLint env none cfg) ∧
    (optTruthy cfg.files = false →
      getFilesToLint env (some program) cfg
        = (env.getFileNames program).flatMap
            (fun pat => env.globSync pat (globOptionsOf cfg))) ∧
    (optTruthy cfg.files = false → getFilesToLint env none cfg = []) := by
  refine ⟨fun h => ⟨?_, ?_⟩, fun h => ?_, fun h => ?_⟩ <;>
    simp [getFilesToLint, h, foldl_append_eq_flatten, List.flatMap]

/-- Witness for C5 at a concrete environment, once with an explicit file
pattern (cfgA) and once with no `files` entry (cfgB). -/
theorem getFilesToLint_resolution_witness :
    getFilesToLint envOK (some 0) cfgA
      = ((cfgA.files.getD (StrOrList.list [])).toList).flatMap
          (fun pat => envOK.globSync pat (globOptionsOf cfgA)) ∧
    getFilesToLint envOK (some 0) cfgA = getFilesToLint envOK none cfgA ∧
    getFilesToLint envOK (some 0) cfgB
      = (envOK.getFileNames 0).flatMap
          (fun pat => envOK.globSync pat (globOptionsOf cfgB)) ∧
    getFilesToLint envOK none cfgB = [] :=
  ⟨((getFilesToLint_resolution envOK 0 cfgA).1 rfl).1,
    ((getFilesToLint_resolution envOK 0 cfgA).1 rfl).2,
    (getFilesToLint_resolution envOK 0 cfgB).2.1 rfl,
    (getFilesToLint_resolution envOK 0 cfgB).2.2 rfl⟩

/-- C7: an empty configuration list yields exit code 0 with exactly one
warning line when not silent and no output when silent, and the whole
outcome is independent of the environment (no module loading, globbing,
linting or formatting is consulted). -/
theorem run_emptyConfigs (env env2 : Env) (optionsArg : LintTaskOptionsArg)
    (hconfigs : (mergeOptions optionsArg).configs.getD [] = []) :
    run env optionsArg
      = ((if truthy (mergeOptions optionsArg).silent then []
          else [Styled.yellow "No lint configuration(s) found."]), Except.ok 0) ∧
    run env optionsArg = run env2 optionsArg := by
  have h1 : ∀ e : Env, run e optionsArg
      = ((if truthy (mergeOptions optionsArg).silent then []
          else [Styled.yellow "No lint configuration(s) found."]), Except.ok 0) := by
    intro e
    simp [run, hconfigs]
  exact ⟨h1 env, (h1 env).trans (h1 env2).symm⟩

/-- Witness for C7: no configs key at all, default (non-silent) options,
two different environments. -/
theorem run_emptyConfigs_witness :
    (mergeOptions optsEmpty).configs.getD [] = [] ∧
    (run envOK optsEmpty
      = ((if truthy (mergeOptions optsEmpty).silent then []
          else [Styled.yellow "No lint configuration(s) found."]), Except.ok 0) ∧
      run envOK optsEmpty = run envNoFmt optsEmpty) :=
  ⟨rfl, run_emptyConfigs envOK envNoFmt optsEmpty rfl⟩

/-- C3: for a human-readable format (prose, verbose, stylish) and a merged
result with at least one failure, run resolves exit code 2 when force is
falsy and 0 when force is truthy, regardless of how many failures there
are. -/
theorem run_humanReadable_failures_exitCode (env : Env) (optionsArg : LintTaskOptionsArg)
    (f : String) (out : List Styled) (rs : List LintResult)
    (hformat : (mergeOptions optionsArg).format = some f)
    (hf : f ∈ humanReadableFormats)
    (hconfigs : (mergeOptions optionsArg).configs.getD [] ≠ [])
    (hproc : processConfigs env (mergeOptions optionsArg)
        ((mergeOptions optionsArg).configs.getD []) = (out, Except.ok rs))
    (hfail : (mergeAll rs).failures ≠ [])
    (hfmt : truthy (mergeOptions optionsArg).silent = true ∨
        (env.findFormatter (mergeOptions optionsArg).format).isSome = true) :
    (run env optionsArg).2
      = Except.ok (if truthy (mergeOptions optionsArg).force then 0 else 2) := by
  have hhr : formatIsHumanReadable (mergeOptions optionsArg).format = true := by
    rw [hformat]
    simp [humanReadableFormats] at hf
    rcases hf with rfl | rfl | rfl <;> rfl
  have hpos : 0 < (mergeAll rs).failures.length := List.length_pos.mpr hfail
  have hphase : exitPhase (mergeOptions optionsArg) (mergeAll rs)
      = ((if truthy (mergeOptions optionsArg).silent then []
          else [Styled.red "Lint errors found in the listed files."]),
        if truthy (mergeOptions optionsArg).force then 0 else 2) := by
    simp [exitPhase, hhr, hpos]
  rw [run_nonEmpty env optionsArg hconfigs, hproc]
  cases hsil : truthy (mergeOptions optionsArg).silent with
  | true => simp [reportAndExit, hsil, hphase]
  | false =>
    have hsome : (env.findFormatter (mergeOptions optionsArg).format).isSome = true := by
      rcases hfmt with h | h
      · rw [hsil] at h
        exact absurd h (by simp)
      · exact h
    obtain ⟨fn, hfn⟩ := Option.isSome_iff_exists.mp hsome
    simp [reportAndExit, hsil, hfn, hphase]

/-- Witness for C3 at a concrete environment whose linter reports one
failure, with format "prose" and default force. -/
theorem run_humanReadable_failures_exitCode_witness :
    (mergeOptions optsProse).format = some "prose" ∧
    "prose" ∈ humanReadableFormats ∧
    (mergeOptions optsProse).configs.getD [] ≠ [] ∧
    processConfigs envOK (mergeOptions optsProse) ((mergeOptions optsProse).configs.getD [])
      = ([], Except.ok [{ failures := [1], fixes := none }]) ∧
    (mergeAll [{ failures := [1], fixes := none }]).failures ≠ [] ∧
    (truthy (mergeOptions optsProse).silent = true ∨
      (envOK.findFormatter (mergeOptions optsProse).format).isSome = true) ∧
    (run envOK optsProse).2
      = Except.ok (if truthy (mergeOptions optsProse).force then 0 else 2) :=
  ⟨rfl, by decide, by decide, rfl, by decide, Or.inr rfl,
    run_humanReadable_failures_exitCode envOK optsProse "prose" []
      [{ failures := [1], fixes := none }] rfl (by decide) (by decide)
      rfl (by decide) (Or.inr rfl)⟩

/-- C9: for a format outside the three human-readable ones and a merged
result with zero failures, run resolves exit code 0 independently of the
force setting, and neither the red nor the green banner is ever printed,
whatever the silent setting. -/
theorem run_nonHumanReadable_zeroFailures (env : Env) (optionsArg : LintTaskOptionsArg)
    (out : List Styled) (rs : List LintResult)
    (hformat : formatIsHumanReadable (mergeOptions optionsArg).format = false)
    (hconfigs : (mergeOptions optionsArg).configs.getD [] ≠ [])
    (hproc : processConfigs env (mergeOptions optionsArg)
        ((mergeOptions optionsArg).configs.getD []) = (out, Except.ok rs))
    (hfail : (mergeAll rs).failures = [])
    (hfmt : truthy (mergeOptions optionsArg).silent = true ∨
        (env.findFormatter (mergeOptions optionsArg).format).isSome = true) :
    (run env optionsArg).2 = Except.ok 0 ∧
    Styled.red "Lint errors found in the listed files." ∉ (run env optionsArg).1 ∧
    Styled.green "All files pass linting." ∉ (run env optionsArg).1 := by
  have hphase : exitPhase (mergeOptions optionsArg) (mergeAll rs) = ([], 0) := by
    simp [exitPhase, hformat, hfail]
  have hyellow : out.all isYellow = true := by
    have h := processConfigs_out_yellow env (mergeOptions optionsArg)
      ((mergeOptions optionsArg).configs.getD [])
    rw [hproc] at h
    exact h
  have hred := (all_yellow_no_banner out hyellow "Lint errors found in the listed files.").1
  have hgreen := (all_yellow_no_banner out hyellow "All files pass linting.").2
  rw [run_ok env optionsArg out rs hconfigs hproc]
  cases hsil : truthy (mergeOptions optionsArg).silent with
  | true =>
    have he : reportAndExit env (mergeOptions optionsArg) out (mergeAll rs)
        = (out, Except.ok 0) := by
      simp [reportAndExit, hsil, hphase]
    rw [he]
    exact ⟨rfl, hred, hgreen⟩
  | false =>
    have hsome : (env.findFormatter (mergeOptions optionsArg).format).isSome = true := by
      rcases hfmt with h | h
      · rw [hsil] at h
        exact absurd h (by simp)
      · exact h
    obtain ⟨fn, hfn⟩ := Option.isSome_iff_exists.mp hsome
    have he : reportAndExit env (mergeOptions optionsArg) out (mergeAll rs)
        = (out ++ (if (fn (mergeAll rs).failures (mergeAll rs).fixes == "") = true then []
            else [Styled.plain (fn (mergeAll rs).failures (mergeAll rs).fixes)]),
          Except.ok 0) := by
      simp [reportAndExit, hsil, hfn, hphase]
    rw [he]
    refine ⟨rfl, ?_, ?_⟩
    · intro hmem
      rcases List.mem_append.mp hmem with h | h
      · exact hred h
      · revert h
        split <;> simp
    · intro hmem
      rcases List.mem_append.mp hmem with h | h
      · exact hgreen h
      · revert h
        split <;> simp

/-- Witness for C9 at format "json" with zero failures and force=true. -/
theorem run_nonHumanReadable_zeroFailures_witness :
    formatIsHumanReadable (mergeOptions optsJson).format = false ∧
    (mergeOptions optsJson).configs.getD [] ≠ [] ∧
    processConfigs envNoFail (mergeOptions optsJson) ((mergeOptions optsJson).configs.getD [])
      = ([], Except.ok [{ failures := [], fixes := none }]) ∧
    (mergeAll [{ failures := [], fixes := none }]).failures = [] ∧
    (truthy (mergeOptions optsJson).silent = true ∨
      (envNoFail.findFormatter (mergeOptions optsJson).format).isSome = true) ∧
    ((run envNoFail optsJson).2 = Except.ok 0 ∧
      Styled.red "Lint errors found in the listed files." ∉ (run envNoFail optsJson).1 ∧
      Styled.green "All files pass linting." ∉ (run envNoFail optsJson).1) :=
  ⟨by decide, by decide, rfl, rfl, Or.inr rfl,
    run_nonHumanReadable_zeroFailures envNoFail optsJson []
      [{ failures := [], fixes := none }] (by decide) (by decide) rfl
      rfl (Or.inr rfl)⟩

/-- C8: with silent=false and a formatter name unknown to the linter
library, run throws the fatal, labeled invalid-format error naming the
requested format; the lines written up to that point are only yellow
configuration warnings — no formatted output, no banner, and no exit code
is produced. -/
theorem run_invalidFormat_fatal (env : Env) (optionsArg : LintTaskOptionsArg)
    (out : List Styled) (rs : List LintResult)
    (hsilent : truthy (mergeOptions optionsArg).silent = false)
    (hfmt : env.findFormatter (mergeOptions optionsArg).format = none)
    (hconfigs : (mergeOptions optionsArg).configs.getD [] ≠ [])
    (hproc : processConfigs env (mergeOptions optionsArg)
        ((mergeOptions optionsArg).configs.getD []) = (out, Except.ok rs)) :
    run env optionsArg
      = (out, Except.error (SilentError.mk (Styled.red
          (invalidFormatMessage (mergeOptions optionsArg).format)))) ∧
    out.all isYellow = true := by
  constructor
  · rw [run_ok env optionsArg out rs hconfigs hproc]
    simp [reportAndExit, hsilent, hfmt]
  · have h := processConfigs_out_yellow env (mergeOptions optionsArg)
      ((mergeOptions optionsArg).configs.getD [])
    rw [hproc] at h
    exact h

/-- Witness for C8 at format "doesNotExist" with default (false) silent
and an environment with no known formatters. -/
theorem run_invalidFormat_fatal_witness :
    truthy (mergeOptions optsLoudUnknown).silent = false ∧
    envNoFmt.findFormatter (mergeOptions optsLoudUnknown).format = none ∧
    (mergeOptions optsLoudUnknown).configs.getD [] ≠ [] ∧
    processConfigs envNoFmt (mergeOptions optsLoudUnknown)
        ((mergeOptions optsLoudUnknown).configs.getD [])
      = ([], Except.ok [{ failures := [1], fixes := none }]) ∧
    (run envNoFmt optsLoudUnknown
      = ([], Except.error (SilentError.mk (Styled.red
          (invalidFormatMessage (mergeOptions optsLoudUnknown).format)))) ∧
      ([] : List Styled).all isYellow = true) :=
  ⟨rfl, rfl, by decide, rfl,
    run_invalidFormat_fatal envNoFmt optsLoudUnknown []
      [{ failures := [1], fixes := none }] rfl rfl (by decide) rfl⟩

/-- C1 counterexample: an invocation with silent=true and a formatter name
unknown to the linter library does not raise the invalid-format error —
it resolves an exit code — because the formatter lookup sits inside the
`if (!options.silent)` block. -/
theorem run_silent_skips_formatter_cex :
    truthy (mergeOptions optsSilentUnknown).silent = true ∧
    envNoFmt.findFormatter (mergeOptions optsSilentUnknown).format = none ∧
    (run envNoFmt optsSilentUnknown).2 = Except.ok 2 :=
  ⟨rfl, rfl, rfl⟩

/-- C1 amended: the fatal invalid-format error naming the requested format
is raised exactly when silent is false; when silent is true the formatter
is never resolved, no error is raised, and run resolves an exit code. -/
theorem run_invalidFormat_iff_not_silent (env : Env) (optionsArg : LintTaskOptionsArg)
    (out : List Styled) (rs : List LintResult)
    (hfmt : env.findFormatter (mergeOptions optionsArg).format = none)
    (hconfigs : (mergeOptions optionsArg).configs.getD [] ≠ [])
    (hproc : processConfigs env (mergeOptions optionsArg)
        ((mergeOptions optionsArg).configs.getD []) = (out, Except.ok rs)) :
    (truthy (mergeOptions optionsArg).silent = false →
      (run env optionsArg).2 = Except.error (SilentError.mk (Styled.red
        (invalidFormatMessage (mergeOptions optionsArg).format)))) ∧
    (truthy (mergeOptions optionsArg).silent = true →
      (run env optionsArg).2
        = Except.ok (exitPhase (mergeOptions optionsArg) (mergeAll rs)).2) := by
  rw [run_ok env optionsArg out rs hconfigs hproc]
  constructor
  · intro hsil
    simp [reportAndExit, hsil, hfmt]
  · intro hsil
    simp [reportAndExit, hsil]

/-- Witness for C1's amended statement: with an unknown formatter, the
silent=false invocation throws the invalid-format error while the
silent=true invocation resolves an exit code. -/
theorem run_invalidFormat_iff_not_silent_witness :
    (run envNoFmt optsLoudUnknown).2 = Except.error (SilentError.mk (Styled.red
      (invalidFormatMessage (mergeOptions optsLoudUnknown).format))) ∧
    (run envNoFmt optsSilentUnknown).2
      = Except.ok (exitPhase (mergeOptions optsSilentUnknown)
          (mergeAll [{ failures := [1], fixes := none }])).2 :=
  ⟨(run_invalidFormat_iff_not_silent envNoFmt optsLoudUnknown []
      [{ failures := [1], fixes := none }] rfl (by decide) rfl).1 rfl,
    (run_invalidFormat_iff_not_silent envNoFmt optsSilentUnknown []
      [{ failures := [1], fixes := none }] rfl (by decide) rfl).2 rfl⟩

/-- C6: when reading a file to be linted fails (no program active for the
config), a fatal error naming that file is thrown — the per-file loop
aborts before looking at any further file — and the whole run returns
that error with only the yellow warnings written so far: no merged
result, no formatted output, no banner and no exit code. -/
theorem run_fileReadError_aborts (env : Env) (optionsArg : LintTaskOptionsArg)
    (cfg : CliLintConfig) (file : String) (rest : List String)
    (lastDir : Option String) (cl : Option RuleResults)
    (out : List Styled) (e : SilentError)
    (hread : env.readFile file = none)
    (hconfigs : (mergeOptions optionsArg).configs.getD [] ≠ [])
    (hproc : processConfigs env (mergeOptions optionsArg)
        ((mergeOptions optionsArg).configs.getD []) = (out, Except.error e)) :
    getFileContents env file
      = Except.error (SilentError.mk (Styled.plain
          ("Could not read file \"" ++ file ++ "\"."))) ∧
    lintCalls env cfg none (file :: rest) lastDir cl
      = Except.error (SilentError.mk (Styled.plain
          ("Could not read file \"" ++ file ++ "\"."))) ∧
    run env optionsArg = (out, Except.error e) ∧
    out.all isYellow = true := by
  have h1 : getFileContents env file
      = Except.error (SilentError.mk (Styled.plain
          ("Could not read file \"" ++ file ++ "\"."))) := by
    simp [getFileContents, hread]
  refine ⟨h1, ?_, ?_, ?_⟩
  · simp only [lintCalls, h1]
  · exact run_err env optionsArg out e hconfigs hproc
  · have h := processConfigs_out_yellow env (mergeOptions optionsArg)
      ((mergeOptions optionsArg).configs.getD [])
    rw [hproc] at h
    exact h

/-- Witness for C6 at a concrete environment where every read fails and a
configuration naming the single file "a.ts". -/
theorem run_fileReadError_aborts_witness :
    envNoRead.readFile "a.ts" = none ∧
    (mergeOptions optsProse).configs.getD [] ≠ [] ∧
    processConfigs envNoRead (mergeOptions optsProse)
        ((mergeOptions optsProse).configs.getD [])
      = ([], Except.error (SilentError.mk (Styled.plain
          "Could not read file \"a.ts\"."))) ∧
    (getFileContents envNoRead "a.ts"
      = Except.error (SilentError.mk (Styled.plain
          ("Could not read file \"" ++ "a.ts" ++ "\"."))) ∧
    lintCalls envNoRead cfgA none ["a.ts"] none none
      = Except.error (SilentError.mk (Styled.plain
          ("Could not read file \"" ++ "a.ts" ++ "\"."))) ∧
    run envNoRead optsProse
      = ([], Except.error (SilentError.mk (Styled.plain
          "Could not read file \"a.ts\"."))) ∧
    ([] : List Styled).all isYellow = true) :=
  ⟨rfl, by decide, rfl,
    run_fileReadError_aborts envNoRead optsProse cfgA "a.ts" [] none none []
      (SilentError.mk (Styled.plain "Could not read file \"a.ts\".")) rfl (by decide) rfl⟩

/-- C10: an options object whose format (respectively silent, typeCheck)
key is present but explicitly undefined does not receive the documented
default — the spread merge lets the explicit undefined overwrite it — and
in particular an explicitly-undefined format is not "prose" and counts as
non-human-readable in the exit-code decision, which then never prints a
banner. -/
theorem mergeOptions_explicit_undefined (optionsArg : LintTaskOptionsArg)
    (result : LintResult)
    (hf : optionsArg.format = some none) :
    (mergeOptions optionsArg).format = none ∧
    (mergeOptions optionsArg).format ≠ some "prose" ∧
    formatIsHumanReadable (mergeOptions optionsArg).format = false ∧
    exitPhase (mergeOptions optionsArg) result
      = ([], if result.failures.length == 0 || truthy (mergeOptions optionsArg).force
          then 0 else 2) ∧
    (optionsArg.silent = some none → (mergeOptions optionsArg).silent = none) ∧
    (optionsArg.typeCheck = some none → (mergeOptions optionsArg).typeCheck = none) := by
  have hfmt : (mergeOptions optionsArg).format = none := by
    simp [mergeOptions, hf]
  refine ⟨hfmt, by simp [hfmt], by simp [formatIsHumanReadable, hfmt], ?_, ?_, ?_⟩
  · simp [exitPhase, formatIsHumanReadable, hfmt]
  · intro hs
    simp [mergeOptions, hs]
  · intro ht
    simp [mergeOptions, ht]

/-- Witness for C10 with all three keys explicitly undefined and a result
with one failure. -/
theorem mergeOptions_explicit_undefined_witness :
    (mergeOptions optsUndef).format = none ∧
    (mergeOptions optsUndef).format ≠ some "prose" ∧
    formatIsHumanReadable (mergeOptions optsUndef).format = false ∧
    exitPhase (mergeOptions optsUndef) { failures := [1], fixes := none }
      = ([], if ({ failures := [1], fixes := none } : LintResult).failures.length == 0
            || truthy (mergeOptions optsUndef).force then 0 else 2) ∧
    (mergeOptions optsUndef).silent = none ∧
    (mergeOptions optsUndef).typeCheck = none :=
  ⟨(mergeOptions_explicit_undefined optsUndef { failures := [1], fixes := none } rfl).1,
    (mergeOptions_explicit_undefined optsUndef { failures := [1], fixes := none } rfl).2.1,
    (mergeOptions_explicit_undefined optsUndef { failures := [1], fixes := none } rfl).2.2.1,
    (mergeOptions_explicit_undefined optsUndef { failures := [1], fixes := none } rfl).2.2.2.1,
    (mergeOptions_explicit_undefined optsUndef { failures := [1], fixes := none } rfl).2.2.2.2.1 rfl,
    (mergeOptions_explicit_undefined optsUndef { failures := [1], fixes := none } rfl).2.2.2.2.2 rfl⟩
